import Mathlib

/-!
Shallow embedding of the `next-actions` pipeline library (src/src/action.ts,
src/src/types.ts, src/src/validators/zod.ts) together with the concrete
pipelines assembled in its test suite.

Modelling decisions, each traceable to the TypeScript source:

* A JS object used as the execution context is an association list of
  string keys and values, read and written with the semantics of property
  access and of `Object.assign` (existing keys are overwritten in place,
  new keys are appended in source order).
* `async` step functions are deterministic functions: the executor awaits
  each step before the next, so one invocation is a sequential chain and
  promises add nothing to the extensional behaviour being verified.
* The `Action` class instance is a record holding `context`, `validators`
  and the optional `actionFn` field, exactly the three private fields of
  the class.  Method calls that mutate `this` become functions returning
  the updated record; `execute`, which mutates `this.context` via
  `Object.assign`, returns the updated record alongside its result so that
  a second invocation of the same instance is `execute` applied to that
  returned record (the entry point produced by `setActionFn` is
  `this.execute.bind(this)`, so every call reads the instance fields at
  call time).
* `throw new Error(msg)` in `execute` is the `Except.error msg` branch,
  disjoint by construction from every structured `ActionResult`.
-/

namespace NextActions

/-- A structured issue produced by the schema engine: a path locating the
offending field plus a human-readable message (zod's `$ZodIssue`, projected
to the two components the spec talks about). -/
structure ZodIssue where
  path : List String
  message : String
  deriving DecidableEq, Repr

/-- JS runtime values appearing in contexts, payloads and params of the
concrete pipelines of the repository: strings, numbers, opaque schema
objects (identified by name), single-field object literals such as
`\x7bdata: "Data 1"\x7d`, and the `\x7bissues: [...]\x7d` payload of the zod
adapter. -/
inductive JVal where
  | jstr (s : String)
  | jnum (n : Int)
  | jschema (name : String)
  | jobj1 (field : String) (value : JVal)
  | jissues (issues : List ZodIssue)
  deriving DecidableEq, Repr

/-- A JS object acting as a string-keyed map: an association list in
insertion order, without duplicate keys as long as it is only built by
`setKey`. -/
abbrev Ctx (V : Type) : Type := List (String × V)

/-- JS property read: the value stored under `key`, if any. -/
def ctxLookup {V : Type} : Ctx V → String → Option V
  | [], _ => none
  | (k, v) :: rest, key => if k = key then some v else ctxLookup rest key

/-- Writing one property with `Object.assign` semantics: an existing key is
overwritten in place (its position kept), a new key is appended. -/
def setKey {V : Type} : Ctx V → String → V → Ctx V
  | [], key, val => [(key, val)]
  | (k, v) :: rest, key, val =>
      if k = key then (k, val) :: rest else (k, v) :: setKey rest key val

/-- `Object.assign(target, src)`: every own property of `src` is written
into `target`, in source order. -/
def objAssign {V : Type} (target src : Ctx V) : Ctx V :=
  src.foldl (fun t kv => setKey t kv.1 kv.2) target

/-- `ValidationResult` of src/src/types.ts: tagged on `ok`. The pass branch
carries the contributed context fragment (a validator with `void` output
context, which returns bare `\x7bok: true\x7d`, contributes the empty
fragment — `Object.assign` with an absent `context` field is a no-op). The
fail branch carries the error code and the payload coupled to it. -/
inductive VResult (V E : Type) where
  | ok (fragment : Ctx V)
  | fail (errorCode : E) (payload : V)
  deriving DecidableEq

/-- `ActionResult` of src/src/types.ts: success with a message and an
optional payload (absent exactly when the success payload type is `void`),
or failure with a message, an error code and that code's payload. -/
inductive AResult (V E : Type) where
  | success (message : String) (payload : Option V)
  | failure (message : String) (errorCode : E) (errorPayload : V)
  deriving DecidableEq

/-- `ValidationHandler`: a validator step receives the params and the
current accumulated context and produces its validation outcome. -/
def ValidationHandler (P V E : Type) : Type := P → Ctx V → VResult V E

/-- `ActionHandler`: the terminal handler receives the params and the final
accumulated context and produces the pipeline's outcome. -/
def ActionHandler (P V E : Type) : Type := P → Ctx V → AResult V E

/-- The three private fields of the `Action` class. -/
structure Action (P V E : Type) where
  context : Ctx V
  validators : List (ValidationHandler P V E)
  actionFn : Option (ActionHandler P V E)

/-- `new Action()`: empty context, no validators, no action function. -/
def Action.new {P V E : Type} : Action P V E :=
  { context := [], validators := [], actionFn := none }

/-- `setInputSchema`: `Object.assign(this.context, \x7binputSchema: schema\x7d)` —
records the schema value under the reserved key, replacing a previous one. -/
def Action.setInputSchema {P V E : Type} (schemaVal : V) (a : Action P V E) :
    Action P V E :=
  { a with context := objAssign a.context [("inputSchema", schemaVal)] }

/-- `addValidator`: `this.validators.push(validator)` — appends to the end
of the ordered list. -/
def Action.addValidator {P V E : Type} (v : ValidationHandler P V E)
    (a : Action P V E) : Action P V E :=
  { a with validators := a.validators ++ [v] }

/-- `setActionFn`: assigns `this.actionFn` and returns
`this.execute.bind(this)`.  The binding reads the instance at call time, so
invoking the returned entry point is modelled as `Action.execute` applied
to the instance state current at the call. -/
def Action.setActionFn {P V E : Type} (f : ActionHandler P V E)
    (a : Action P V E) : Action P V E :=
  { a with actionFn := some f }

/-- The validator loop of `execute`: run each validator in order on the
accumulated context; on the first failure stop and report its error code,
payload and the context accumulated so far (the fragments already merged by
`Object.assign` stay merged); if all pass, report the final context. -/
def runValidators {P V E : Type} (params : P) :
    List (ValidationHandler P V E) → Ctx V → (E × V × Ctx V) ⊕ Ctx V
  | [], ctx => Sum.inr ctx
  | v :: rest, ctx =>
    match v params ctx with
    | .fail code payload => Sum.inl (code, payload, ctx)
    | .ok frag => runValidators params rest (objAssign ctx frag)

/-- `Action.execute`: throws if `actionFn` was never assigned; otherwise
runs the validators over `this.context`, returning a `"Validation failed"`
failure forwarding the first failing validator's code and payload, or the
terminal handler's result.  The updated instance (its `context` field
mutated in place by the `Object.assign` calls) is returned alongside. -/
def Action.execute {P V E : Type} (a : Action P V E) (params : P) :
    Except String (AResult V E × Action P V E) :=
  match a.actionFn with
  | none => Except.error "Action function is undefined"
  | some f =>
    match runValidators params a.validators a.context with
    | Sum.inl (code, payload, ctx) =>
        Except.ok (AResult.failure "Validation failed" code payload,
          { a with context := ctx })
    | Sum.inr ctx => Except.ok (f params ctx, { a with context := ctx })

/-- The outcome of one invocation of the assembled entry point, discarding
the (mutated) instance. -/
def runOutcome {P V E : Type} (a : Action P V E) (params : P) :
    Except String (AResult V E) :=
  (a.execute params).map Prod.fst

/-- Two sequential invocations of the same assembled entry point: the
second call's `this` is the instance as the first call left it.  Returns
the second invocation's outcome. -/
def runTwice {P V E : Type} (a : Action P V E) (p1 p2 : P) :
    Except String (AResult V E) :=
  match a.execute p1 with
  | Except.error e => Except.error e
  | Except.ok (_, a1) => runOutcome a1 p2

/-- The context the terminal handler observes during an invocation, when it
is reached: the accumulated context after all validators passed. -/
def handlerContext {P V E : Type} (a : Action P V E) (params : P) :
    Option (Ctx V) :=
  match a.actionFn with
  | none => none
  | some _ =>
    match runValidators params a.validators a.context with
    | Sum.inl _ => none
    | Sum.inr ctx => some ctx

/-- The context the terminal handler observes during the second of two
sequential invocations of the same assembled entry point. -/
def handlerContextTwice {P V E : Type} (a : Action P V E) (p1 p2 : P) :
    Option (Ctx V) :=
  match a.execute p1 with
  | Except.error _ => none
  | Except.ok (_, a1) => handlerContext a1 p2

/-- The sequence of accumulated contexts observed during one invocation's
validator loop: the context before each validator runs, ending with the
context handed to the terminal handler (all validators passed) or the
context at the moment of the failure (the invocation's last state). -/
def ctxTrace {P V E : Type} (params : P) :
    List (ValidationHandler P V E) → Ctx V → List (Ctx V)
  | [], ctx => [ctx]
  | v :: rest, ctx =>
    match v params ctx with
    | .fail _ _ => [ctx]
    | .ok frag => ctx :: ctxTrace params rest (objAssign ctx frag)

/-- Context `c'` retains every key of context `c` (with some value). -/
def keySub {V : Type} (c c' : Ctx V) : Prop :=
  ∀ k, (ctxLookup c k).isSome → (ctxLookup c' k).isSome

/-- Outcome of zod's `safeParse`: the parsed data on success, or the
ordered list of structured issues on failure. -/
inductive ParseOutcome (P : Type) where
  | psuccess (data : P)
  | pfailure (issues : List ZodIssue)
  deriving DecidableEq

/-- A schema engine: validates a candidate value against a schema and
returns a pass/fail plus structured issues (the spec's external
collaborator, consumed only through this interface). -/
def SafeParse (S P : Type) : Type := S → P → ParseOutcome P

/-- `zodValidator` of src/src/validators/zod.ts, parametrised by the schema
engine it delegates to: on parse failure it returns a validator fail with
the fixed code `"zodValidator_invalidParams"` and the engine's issue list
as payload; on parse success it returns a bare pass (no contributed
context, modelled as the empty fragment). -/
def zodValidator {S P : Type} (sp : SafeParse S P) (schema : S) (params : P) :
    VResult JVal String :=
  match sp schema params with
  | .pfailure issues =>
      VResult.fail "zodValidator_invalidParams" (JVal.jissues issues)
  | .psuccess _ => VResult.ok []

/-- Params object of shape `\x7bname: string\x7d`. -/
structure NameParams where
  name : String
  deriving DecidableEq, Repr

/-- Params object of shape `\x7bnum: number\x7d`. -/
structure NumParams where
  num : Int
  deriving DecidableEq, Repr

/-- The example schema of the spec and test suite: an object with a string
field `name` of length at least 2, as an opaque schema object. -/
def nameInputSchema : JVal := JVal.jschema "nameInputSchema"

/-- The schema engine's behaviour on `nameInputSchema` (zod
`z.object(\x7bname: z.string().min(2, ...)\x7d)` from tests/validator.test.ts):
success when `name` has length at least 2, otherwise one issue whose path
references `name` and whose message is the schema's configured one. -/
def nameInputSchemaParse : SafeParse JVal NameParams := fun _ p =>
  if 2 ≤ p.name.length then ParseOutcome.psuccess p
  else
    ParseOutcome.pfailure
      [{ path := ["name"],
         message := "Name must contain at least 2 character(s)" }]

/-- The numeric example's input schema (`z.object(\x7bnum: z.number()\x7d)`), as
an opaque schema object. -/
def numberInputSchema : JVal := JVal.jschema "numberInputSchema"

/-- First and fourth validators of `actionWithNumericValidators`: always
pass, contributing nothing (`async () => (\x7bok: true\x7d)`). -/
def trivialPassV : ValidationHandler NumParams JVal String := fun _ _ =>
  VResult.ok []

/-- Second validator of `actionWithNumericValidators`: fails with code
`firstInvalid` and payload `\x7bdata: "Data 1"\x7d` when `num === 1`. -/
def firstInvalidV : ValidationHandler NumParams JVal String := fun p _ =>
  if p.num = 1 then
    VResult.fail "firstInvalid" (JVal.jobj1 "data" (JVal.jstr "Data 1"))
  else VResult.ok []

/-- Third validator of `actionWithNumericValidators`: fails with code
`secondInvalid` and payload `\x7bdata: "Data 2"\x7d` when `num === 2`. -/
def secondInvalidV : ValidationHandler NumParams JVal String := fun p _ =>
  if p.num = 2 then
    VResult.fail "secondInvalid" (JVal.jobj1 "data" (JVal.jstr "Data 2"))
  else VResult.ok []

/-- Terminal handler of `actionWithNumericValidators`: success with message
`"Hello"` and payload `\x7bpost: "Post"\x7d`. -/
def numericActionFn : ActionHandler NumParams JVal String := fun _ _ =>
  AResult.success "Hello" (some (JVal.jobj1 "post" (JVal.jstr "Post")))

/-- The end-to-end example pipeline of tests/validator.test.ts: input
schema, a trivial validator, the two numeric validators, another trivial
validator, and the terminal handler. -/
def actionWithNumericValidators : Action NumParams JVal String :=
  Action.new.setInputSchema numberInputSchema
    |>.addValidator trivialPassV
    |>.addValidator firstInvalidV
    |>.addValidator secondInvalidV
    |>.addValidator trivialPassV
    |>.setActionFn numericActionFn

/-- A validator that contributes the context fragment `\x7ba: 1\x7d` when
`num === 1` and contributes nothing otherwise: a minimal param-dependent
context contribution, used to exercise cross-invocation behaviour. -/
def condFragV : ValidationHandler NumParams JVal String := fun p _ =>
  if p.num = 1 then VResult.ok [("a", JVal.jnum 1)] else VResult.ok []

/-- A terminal handler that surfaces the context entry under key `"a"` as
its success payload, making the context it observes visible in the
pipeline's outcome. -/
def exposeAFn : ActionHandler NumParams JVal String := fun _ ctx =>
  AResult.success "ok" (ctxLookup ctx "a")

/-- A pipeline with a declared input shape, the single conditional
validator `condFragV` and the observing handler `exposeAFn`. -/
def leakyAction : Action NumParams JVal String :=
  Action.new.setInputSchema (JVal.jschema "s")
    |>.addValidator condFragV
    |>.setActionFn exposeAFn

theorem ctxLookup_setKey {V : Type} (c : Ctx V) (key : String) (val : V)
    (q : String) :
    ctxLookup (setKey c key val) q =
      if key = q then some val else ctxLookup c q := by
  induction c with
  | nil => simp [setKey, ctxLookup]
  | cons kv rest ih =>
    obtain ⟨k, v⟩ := kv
    by_cases hk : k = key
    · subst hk
      simp only [setKey, if_pos rfl, ctxLookup]
      split_ifs <;> simp_all
    · simp only [setKey, if_neg hk, ctxLookup, ih]
      split_ifs <;> simp_all

theorem keySub_refl {V : Type} (c : Ctx V) : keySub c c := fun _ h => h

theorem keySub_trans {V : Type} {a b c : Ctx V} (h1 : keySub a b)
    (h2 : keySub b c) : keySub a c := fun k h => h2 k (h1 k h)

theorem keySub_setKey {V : Type} (c : Ctx V) (key : String) (val : V) :
    keySub c (setKey c key val) := by
  intro k h
  rw [ctxLookup_setKey]
  split_ifs <;> simp_all

theorem keySub_objAssign {V : Type} (frag c : Ctx V) :
    keySub c (objAssign c frag) := by
  induction frag generalizing c with
  | nil => exact keySub_refl c
  | cons kv rest ih =>
    exact keySub_trans (keySub_setKey c kv.1 kv.2) (ih (setKey c kv.1 kv.2))

theorem runValidators_append {P V E : Type} (params : P)
    (pre rest : List (ValidationHandler P V E)) (ctx : Ctx V) :
    runValidators params (pre ++ rest) ctx =
      match runValidators params pre ctx with
      | Sum.inl fl => Sum.inl fl
      | Sum.inr c => runValidators params rest c := by
  induction pre generalizing ctx with
  | nil => rfl
  | cons v vs ih =>
    simp only [List.cons_append, runValidators]
    cases v params ctx with
    | fail code payload => rfl
    | ok frag => exact ih (objAssign ctx frag)

theorem keySub_of_mem_ctxTrace {P V E : Type} (params : P)
    (vs : List (ValidationHandler P V E)) (c x : Ctx V)
    (hx : x ∈ ctxTrace params vs c) : keySub c x := by
  induction vs generalizing c with
  | nil =>
    simp only [ctxTrace, List.mem_singleton] at hx
    exact hx ▸ keySub_refl c
  | cons v rest ih =>
    simp only [ctxTrace] at hx
    cases hv : v params c with
    | fail code payload =>
      rw [hv] at hx
      simp only [List.mem_singleton] at hx
      exact hx ▸ keySub_refl c
    | ok frag =>
      rw [hv] at hx
      rcases List.mem_cons.mp hx with h | h
      · exact h ▸ keySub_refl c
      · exact keySub_trans (keySub_objAssign frag c) (ih (objAssign c frag) h)

theorem ctxTrace_pairwise {P V E : Type} (params : P)
    (vs : List (ValidationHandler P V E)) (c : Ctx V) :
    List.Pairwise keySub (ctxTrace params vs c) := by
  induction vs generalizing c with
  | nil => simp [ctxTrace]
  | cons v rest ih =>
    simp only [ctxTrace]
    cases hv : v params c with
    | fail code payload => simp
    | ok frag =>
      refine List.pairwise_cons.mpr ⟨fun x hx => ?_, ih (objAssign c frag)⟩
      exact keySub_trans (keySub_objAssign frag c)
        (keySub_of_mem_ctxTrace params rest (objAssign c frag) x hx)

theorem ctxTrace_shape {P V E : Type} (params : P)
    (vs : List (ValidationHandler P V E)) (c : Ctx V) :
    ∃ h t, ctxTrace params vs c = h :: t := by
  cases vs with
  | nil => exact ⟨c, [], rfl⟩
  | cons v rest =>
    simp only [ctxTrace]
    cases v params c with
    | fail code payload => exact ⟨c, [], rfl⟩
    | ok frag => exact ⟨c, ctxTrace params rest (objAssign c frag), rfl⟩

theorem ctxTrace_head {P V E : Type} (params : P)
    (vs : List (ValidationHandler P V E)) (c : Ctx V) :
    (ctxTrace params vs c).head? = some c := by
  cases vs with
  | nil => rfl
  | cons v rest =>
    simp only [ctxTrace]
    cases v params c <;> rfl

theorem ctxTrace_getLast {P V E : Type} (params : P)
    (vs : List (ValidationHandler P V E)) (c : Ctx V) :
    (ctxTrace params vs c).getLast? =
      some (match runValidators params vs c with
            | Sum.inl (_, _, cf) => cf
            | Sum.inr cf => cf) := by
  induction vs generalizing c with
  | nil => rfl
  | cons v rest ih =>
    cases hv : v params c with
    | fail code payload => simp [ctxTrace, runValidators, hv]
    | ok frag =>
      simp only [ctxTrace, runValidators, hv]
      obtain ⟨h, t, hshape⟩ := ctxTrace_shape params rest (objAssign c frag)
      rw [hshape, List.getLast?_cons_cons, ← hshape]
      exact ih (objAssign c frag)

/-- C1: the claim says two sequential invocations of one assembled pipeline
have independent contexts — fragments merged while servicing the first must
not be visible to the terminal handler during the second.  The code stores
the accumulated context in the instance field `this.context` and mutates it
with `Object.assign`, so it does leak: after invoking `leakyAction` with
`num = 1` (whose validator merges `\x7ba: 1\x7d`), a second invocation with
`num = 2` (whose validator merges nothing) lets the terminal handler
observe the leftover entry `a = 1` (first conjunct), whereas an invocation
with `num = 2` on the freshly assembled pipeline observes no such entry
(second conjunct). -/
theorem context_leaks_across_invocations :
    runTwice leakyAction ⟨1⟩ ⟨2⟩ =
      Except.ok (AResult.success "ok" (some (JVal.jnum 1))) ∧
    runOutcome leakyAction ⟨2⟩ = Except.ok (AResult.success "ok" none) :=
  ⟨rfl, rfl⟩

/-- C2: if the validators before `vk` all pass and `vk` is the first to
fail, the pipeline stops at `vk`: for every suffix of later validators and
every terminal handler the result is the same failure outcome, whose error
code and payload are exactly those of the failing validator's outcome (so
neither the later validators nor the handler can influence the result —
they are never invoked), and the instance context stays at the point of
failure. -/
theorem first_failure_short_circuits {P V E : Type}
    (pre post : List (ValidationHandler P V E)) (vk : ValidationHandler P V E)
    (f : ActionHandler P V E) (params : P) (c0 ck : Ctx V) (code : E)
    (payload : V)
    (hpre : runValidators params pre c0 = Sum.inr ck)
    (hk : vk params ck = VResult.fail code payload) :
    Action.execute ⟨c0, pre ++ vk :: post, some f⟩ params =
      Except.ok (AResult.failure "Validation failed" code payload,
        ⟨ck, pre ++ vk :: post, some f⟩) := by
  simp [Action.execute, runValidators_append, hpre, runValidators, hk]

theorem first_failure_short_circuits_witness :
    Action.execute
        ⟨[], [trivialPassV] ++ firstInvalidV :: [trivialPassV],
          some numericActionFn⟩ (⟨1⟩ : NumParams) =
      Except.ok
        (AResult.failure "Validation failed" "firstInvalid"
          (JVal.jobj1 "data" (JVal.jstr "Data 1")),
        ⟨[], [trivialPassV] ++ firstInvalidV :: [trivialPassV],
          some numericActionFn⟩) :=
  first_failure_short_circuits [trivialPassV] [trivialPassV] firstInvalidV
    numericActionFn ⟨1⟩ [] [] "firstInvalid"
    (JVal.jobj1 "data" (JVal.jstr "Data 1")) rfl rfl

/-- C3: the claim says that when every validator passes, the terminal
handler receives exactly the declared input-shape entry merged with the
fragments contributed during that invocation.  On the second of two
sequential invocations of `leakyAction` every validator passes and the only
fragment contributed is empty (third and fourth conjuncts: merging it into
the input-shape entry leaves just that entry), yet the handler observes the
leftover entry `a = 1` merged during the first invocation (first conjunct)
— a context different from the claimed one (fifth conjunct).  A fresh
invocation with the same params shows the claimed context (second
conjunct). -/
theorem second_invocation_handler_context_includes_leftover :
    handlerContextTwice leakyAction ⟨1⟩ ⟨2⟩ =
      some [("inputSchema", JVal.jschema "s"), ("a", JVal.jnum 1)] ∧
    handlerContext leakyAction ⟨2⟩ = some [("inputSchema", JVal.jschema "s")] ∧
    condFragV ⟨2⟩ [("inputSchema", JVal.jschema "s")] = VResult.ok [] ∧
    objAssign [("inputSchema", JVal.jschema "s")] [] =
      [("inputSchema", JVal.jschema "s")] ∧
    ([("inputSchema", JVal.jschema "s"), ("a", JVal.jnum 1)] : Ctx JVal) ≠
      [("inputSchema", JVal.jschema "s")] :=
  ⟨rfl, rfl, rfl, rfl, by decide⟩

/-- C4: a pipeline with zero validator steps always invokes the terminal
handler, and whatever Action Outcome the handler returns (success or
failure, for every handler `f`) is the pipeline's result, unmodified; the
instance is left unchanged. -/
theorem no_validators_returns_handler_outcome {P V E : Type}
    (a : Action P V E) (f : ActionHandler P V E) (params : P)
    (hf : a.actionFn = some f) (hv : a.validators = []) :
    a.execute params = Except.ok (f params a.context, a) := by
  obtain ⟨c, vs, af⟩ := a
  simp only at hf hv
  subst hf hv
  simp [Action.execute, runValidators]

theorem no_validators_returns_handler_outcome_witness :
    (Action.new.setInputSchema numberInputSchema
        |>.setActionFn numericActionFn).execute (⟨5⟩ : NumParams) =
      Except.ok
        (numericActionFn ⟨5⟩
          (Action.new.setInputSchema numberInputSchema
            |>.setActionFn numericActionFn).context,
        Action.new.setInputSchema numberInputSchema
          |>.setActionFn numericActionFn) :=
  no_validators_returns_handler_outcome
    (Action.new.setInputSchema numberInputSchema
      |>.setActionFn numericActionFn) numericActionFn ⟨5⟩ rfl rfl

/-- C5: invoking a pipeline whose terminal handler was never assigned
aborts with the thrown error `"Action function is undefined"` — the
`Except.error` branch — and therefore never resolves to any structured
Action Outcome, success or failure. -/
theorem unset_actionFn_throws {P V E : Type} (a : Action P V E) (params : P)
    (h : a.actionFn = none) :
    a.execute params = Except.error "Action function is undefined" ∧
    ∀ out : AResult V E × Action P V E, a.execute params ≠ Except.ok out := by
  have h1 : a.execute params = Except.error "Action function is undefined" := by
    simp [Action.execute, h]
  exact ⟨h1, fun out hout => by rw [h1] at hout; exact Except.noConfusion hout⟩

theorem unset_actionFn_throws_witness :
    (Action.new : Action NumParams JVal String).execute ⟨0⟩ =
      Except.error "Action function is undefined" :=
  (unset_actionFn_throws Action.new ⟨0⟩ rfl).1

/-- C6: the end-to-end example pipeline of the test suite — input schema,
a trivial validator, the `num === 1` validator (code `firstInvalid`,
payload `\x7bdata: "Data 1"\x7d`), the `num === 2` validator (code
`secondInvalid`, payload `\x7bdata: "Data 2"\x7d`), another trivial validator
and a handler returning success payload `\x7bpost: "Post"\x7d` — yields success
with that payload for `num = 3`, and the respective failures for `num = 1`
and `num = 2`. -/
theorem numeric_example_end_to_end :
    runOutcome actionWithNumericValidators ⟨3⟩ =
      Except.ok
        (AResult.success "Hello" (some (JVal.jobj1 "post" (JVal.jstr "Post")))) ∧
    runOutcome actionWithNumericValidators ⟨1⟩ =
      Except.ok
        (AResult.failure "Validation failed" "firstInvalid"
          (JVal.jobj1 "data" (JVal.jstr "Data 1"))) ∧
    runOutcome actionWithNumericValidators ⟨2⟩ =
      Except.ok
        (AResult.failure "Validation failed" "secondInvalid"
          (JVal.jobj1 "data" (JVal.jstr "Data 2"))) :=
  ⟨rfl, rfl, rfl⟩

/-- C7: for every schema engine, schema and candidate value, `zodValidator`
returns a pass with no contributed context exactly when the engine parses
the value successfully, and on engine failure returns a fail whose code is
the fixed `"zodValidator_invalidParams"` and whose payload carries the
engine's ordered issue list; concretely, for the example schema requiring a
string `name` of length at least 2, `\x7bname: "Dave"\x7d` passes and
`\x7bname: ""\x7d` fails with a payload holding the single issue whose path
references `name`. -/
theorem zodValidator_contract :
    (∀ (S P : Type) (sp : SafeParse S P) (schema : S) (params : P),
        (zodValidator sp schema params = VResult.ok [] ↔
          ∃ d, sp schema params = ParseOutcome.psuccess d) ∧
        (∀ issues, sp schema params = ParseOutcome.pfailure issues →
          zodValidator sp schema params =
            VResult.fail "zodValidator_invalidParams" (JVal.jissues issues))) ∧
    zodValidator nameInputSchemaParse nameInputSchema ⟨"Dave"⟩ =
      VResult.ok [] ∧
    zodValidator nameInputSchemaParse nameInputSchema ⟨""⟩ =
      VResult.fail "zodValidator_invalidParams"
        (JVal.jissues
          [{ path := ["name"],
             message := "Name must contain at least 2 character(s)" }]) := by
  refine ⟨fun S P sp schema params => ⟨?_, ?_⟩, rfl, rfl⟩
  · cases hsp : sp schema params with
    | psuccess d => simp [zodValidator, hsp]
    | pfailure issues => simp [zodValidator, hsp]
  · intro issues hiss
    simp [zodValidator, hiss]

theorem zodValidator_contract_witness :
    zodValidator nameInputSchemaParse nameInputSchema ⟨"Da"⟩ =
      VResult.ok [] :=
  (zodValidator_contract.1 JVal NameParams nameInputSchemaParse
    nameInputSchema ⟨"Da"⟩).1.mpr ⟨⟨"Da"⟩, rfl⟩

/-- C8: within one completed invocation the accumulated context only grows:
along the trace of contexts observed before each validator step and at the
end of the invocation (including invocations that end in a validator
failure), every earlier context's keys are retained by every later context;
the trace starts at the instance context and ends at the context stored in
the instance the invocation returns. -/
theorem context_keys_monotone {P V E : Type} (a : Action P V E) (params : P)
    (r : AResult V E) (a1 : Action P V E)
    (h : a.execute params = Except.ok (r, a1)) :
    List.Pairwise keySub (ctxTrace params a.validators a.context) ∧
    (ctxTrace params a.validators a.context).head? = some a.context ∧
    (ctxTrace params a.validators a.context).getLast? = some a1.context := by
  refine ⟨ctxTrace_pairwise params a.validators a.context,
    ctxTrace_head params a.validators a.context, ?_⟩
  rw [ctxTrace_getLast]
  cases hf : a.actionFn with
  | none => simp [Action.execute, hf] at h
  | some f =>
    cases hr : runValidators params a.validators a.context with
    | inl fl =>
      obtain ⟨code, payload, cf⟩ := fl
      simp only [Action.execute, hf, hr, Except.ok.injEq, Prod.mk.injEq] at h
      obtain ⟨-, h2⟩ := h
      subst h2
      rfl
    | inr cf =>
      simp only [Action.execute, hf, hr, Except.ok.injEq, Prod.mk.injEq] at h
      obtain ⟨-, h2⟩ := h
      subst h2
      rfl

theorem context_keys_monotone_witness :
    (ctxTrace (NumParams.mk 1) leakyAction.validators
        leakyAction.context).getLast? =
      some [("inputSchema", JVal.jschema "s"), ("a", JVal.jnum 1)] :=
  (context_keys_monotone leakyAction ⟨1⟩
    (AResult.success "ok" (some (JVal.jnum 1)))
    { leakyAction with
        context := [("inputSchema", JVal.jschema "s"), ("a", JVal.jnum 1)] }
    rfl).2.2

/-- C9: whenever the validator loop reports a failure — whatever the
failing validator, its error code or its payload — the pipeline's failure
outcome carries the fixed message `"Validation failed"`. -/
theorem validator_failure_message_fixed {P V E : Type} (a : Action P V E)
    (params : P) (f : ActionHandler P V E) (code : E) (payload : V)
    (cf : Ctx V) (hf : a.actionFn = some f)
    (h : runValidators params a.validators a.context =
      Sum.inl (code, payload, cf)) :
    runOutcome a params =
      Except.ok (AResult.failure "Validation failed" code payload) := by
  simp [runOutcome, Action.execute, hf, h, Except.map]

theorem validator_failure_message_fixed_witness :
    runOutcome actionWithNumericValidators ⟨1⟩ =
      Except.ok
        (AResult.failure "Validation failed" "firstInvalid"
          (JVal.jobj1 "data" (JVal.jstr "Data 1"))) :=
  validator_failure_message_fixed actionWithNumericValidators ⟨1⟩
    numericActionFn "firstInvalid" (JVal.jobj1 "data" (JVal.jstr "Data 1"))
    [("inputSchema", numberInputSchema)] rfl rfl

/-- C10: the entry point produced by `setActionFn` is `execute` bound to
the live instance, and `addValidator` pushes into that same instance's
list, so a validator appended after `setActionFn` already returned the
entry point is part of the executed list (appended at the end) on later
invocations: it runs on the context accumulated by all earlier validators,
and its failure decides the outcome. -/
theorem late_added_validator_runs {P V E : Type} (a : Action P V E)
    (f : ActionHandler P V E) (v : ValidationHandler P V E) (params : P)
    (ctxAll : Ctx V) (code : E) (payload : V)
    (hall : runValidators params a.validators a.context = Sum.inr ctxAll)
    (hv : v params ctxAll = VResult.fail code payload) :
    ((a.setActionFn f).addValidator v).validators = a.validators ++ [v] ∧
    runOutcome ((a.setActionFn f).addValidator v) params =
      Except.ok (AResult.failure "Validation failed" code payload) := by
  refine ⟨rfl, ?_⟩
  simp [runOutcome, Action.execute, Action.addValidator, Action.setActionFn,
    runValidators_append, hall, runValidators, hv, Except.map]

theorem late_added_validator_runs_witness :
    (((Action.new.setInputSchema numberInputSchema).setActionFn
          numericActionFn).addValidator firstInvalidV).validators =
      (Action.new.setInputSchema numberInputSchema).validators ++
        [firstInvalidV] ∧
    runOutcome
        (((Action.new.setInputSchema numberInputSchema).setActionFn
          numericActionFn).addValidator firstInvalidV) (⟨1⟩ : NumParams) =
      Except.ok
        (AResult.failure "Validation failed" "firstInvalid"
          (JVal.jobj1 "data" (JVal.jstr "Data 1"))) :=
  late_added_validator_runs (Action.new.setInputSchema numberInputSchema)
    numericActionFn firstInvalidV ⟨1⟩ [("inputSchema", numberInputSchema)]
    "firstInvalid" (JVal.jobj1 "data" (JVal.jstr "Data 1")) rfl rfl

end NextActions
